import Mathlib

/-!
Verification development for the barista-agent repository.

The repository consists of a Next.js chat widget (src/frontend/app/page.tsx)
and a FastAPI/LangGraph backend agent. The backend source itself is not
present in the repository snapshot (only the README describing its state,
tools and flow, plus the frontend that calls it), so the backend data model,
tool set, turn controller and session store are modelled from the spec
(sections 3, 4.1, 4.2, 4.3, 6 and 7). The frontend widget is embedded
directly from src/frontend/app/page.tsx.
-/

namespace Barista

/-- Modelled from the spec (section 3, backend source missing from src/):
a menu item has a unique name, a base price, and a mapping from modifier
name to price delta. -/
structure MenuItem where
  name : String
  basePrice : Rat
  modifiers : List (String × Rat)
deriving DecidableEq

/-- Modelled from the spec (section 3): order status is one of open,
confirmed, placed. The `open` state is spelled `opened` because `open` is a
reserved word. -/
inductive OrderStatus where
  | opened
  | confirmed
  | placed
deriving DecidableEq

/-- Modelled from the spec (section 3): an order line records the item name,
a positive quantity, the chosen modifier names and the derived line price. -/
structure OrderLine where
  item : String
  quantity : Nat
  modifiers : List String
  linePrice : Rat
deriving DecidableEq

/-- Modelled from the spec (section 3): an order is an ordered sequence of
order lines plus a status. -/
structure Order where
  lines : List OrderLine
  status : OrderStatus
deriving DecidableEq

/-- Modelled from the spec (section 3): message roles. -/
inductive Role where
  | user
  | assistant
  | tool
deriving DecidableEq

/-- Modelled from the spec (section 3): a transcript message. -/
structure Message where
  role : Role
  content : String
deriving DecidableEq

/-- Modelled from the spec (section 3): a session holds a transcript, an
order and the finished flag. -/
structure Session where
  transcript : List Message
  order : Order
  finished : Bool
deriving DecidableEq

/-- Modelled from the spec (sections 4.2 and 7): the tool-error taxonomy. -/
inductive ToolError where
  | unknownItem (item : String)
  | unknownModifier (m : String)
  | emptyOrder
  | orderNotConfirmed
deriving DecidableEq

/-- Looks an item up in the menu catalog by name. -/
def findItem (menu : List MenuItem) (itemName : String) : Option MenuItem :=
  menu.find? (fun m => m.name == itemName)

/-- Price delta of one modifier on a given menu item, if the modifier exists
on that item. -/
def modifierDelta (item : MenuItem) (m : String) : Option Rat :=
  (item.modifiers.find? (fun p => p.1 == m)).map Prod.snd

/-- Sum of the price deltas of a modifier set on a given menu item. -/
def sumDeltas (item : MenuItem) (mods : List String) : Rat :=
  (mods.map (fun m => (modifierDelta item m).getD 0)).sum

/-- Formatted menu text returned by the get_menu tool. -/
def formatMenu (menu : List MenuItem) : String :=
  "Menu: " ++ String.intercalate ", " (menu.map (fun m => m.name))

/-- Running subtotal of an order. -/
def orderSubtotal (o : Order) : Rat :=
  (o.lines.map (fun l => l.linePrice)).sum

/-- Short textual rendering of an order, used by get_order and
confirm_order result texts. -/
def renderOrderText (o : Order) : String :=
  "You have " ++ Nat.repr o.lines.length ++ " item lines in your order."

/-- Modelled from the spec (section 4.2, backend source missing from src/):
add_to_order validates that the item and every modifier exist in the catalog
(failing with UnknownItemError or UnknownModifierError otherwise) and
appends an OrderLine whose line price is
(basePrice + sum of modifier deltas) times quantity. -/
def add_to_order (menu : List MenuItem) (o : Order) (itemName : String)
    (qty : Nat) (mods : List String) : Except ToolError (String × Order) :=
  match findItem menu itemName with
  | none => Except.error (ToolError.unknownItem itemName)
  | some item =>
    match mods.find? (fun m => (modifierDelta item m).isNone) with
    | some m => Except.error (ToolError.unknownModifier m)
    | none =>
      let line : OrderLine :=
        ⟨itemName, qty, mods, (item.basePrice + sumDeltas item mods) * (qty : Rat)⟩
      Except.ok ("Added " ++ itemName ++ " to your order.",
        { o with lines := o.lines ++ [line] })

/-- Structured view of the current order returned by the get_order tool:
formatted text, the ledger lines, and the running subtotal. -/
structure OrderView where
  text : String
  lines : List OrderLine
  subtotal : Rat
deriving DecidableEq

/-- Modelled from the spec (section 4.2): get_order reads the current order
without mutating it and reports the ledger plus a running subtotal. -/
def get_order (o : Order) : OrderView :=
  ⟨renderOrderText o, o.lines, orderSubtotal o⟩

/-- Modelled from the spec (section 4.2): confirm_order sets the order
status to confirmed, but only if at least one line exists; otherwise it
fails with EmptyOrderError. -/
def confirm_order (o : Order) : Except ToolError (String × Order) :=
  if o.lines = [] then Except.error ToolError.emptyOrder
  else Except.ok (renderOrderText o, { o with status := OrderStatus.confirmed })

/-- Modelled from the spec (section 4.2): place_order requires the order
status to be confirmed (otherwise it fails with OrderNotConfirmedError) and
on success sets the status to placed. The session finished flag is set by
the turn controller when this tool reports setFinished. -/
def place_order (o : Order) : Except ToolError (String × Order) :=
  if o.status = OrderStatus.confirmed then
    Except.ok ("Your order has been placed.", { o with status := OrderStatus.placed })
  else Except.error ToolError.orderNotConfirmed

/-- Modelled from the spec (section 4.2): calculate_total reads the order
and reports a subtotal, tax and total breakdown without mutating it. -/
def calculate_total (o : Order) : String :=
  "Subtotal, tax and total for " ++ Nat.repr o.lines.length ++ " item lines."

/-- Modelled from the spec (section 4.1): the model replies with either
plain text or a structured tool invocation; an unrecognized tool name or
malformed arguments are represented by the invalid case. -/
inductive ToolCall where
  | get_menu
  | add_to_order (item : String) (qty : Nat) (mods : List String)
  | get_order
  | calculate_total
  | confirm_order
  | place_order
deriving DecidableEq

/-- Modelled from the spec (section 9): the model response as a tagged
variant, Text or ToolCall, plus an invalid-call case for unknown tool names
or malformed arguments. -/
inductive ModelResp where
  | text (s : String)
  | call (tc : ToolCall)
  | invalid (name : String)

/-- Result of executing one tool: result text, the (possibly mutated)
order, and whether the tool finalizes the session (true for place_order). -/
structure ToolOutcome where
  text : String
  order : Order
  setFinished : Bool
deriving DecidableEq

/-- Modelled from the spec (section 4.2): uniform tool dispatch executing a
validated tool call against the session order. Only place_order reports
setFinished. -/
def runTool (menu : List MenuItem) (tc : ToolCall) (o : Order) :
    Except ToolError ToolOutcome :=
  match tc with
  | ToolCall.get_menu => Except.ok ⟨formatMenu menu, o, false⟩
  | ToolCall.add_to_order item qty mods =>
      (add_to_order menu o item qty mods).map (fun r => ⟨r.1, r.2, false⟩)
  | ToolCall.get_order => Except.ok ⟨(get_order o).text, o, false⟩
  | ToolCall.calculate_total => Except.ok ⟨calculate_total o, o, false⟩
  | ToolCall.confirm_order => (confirm_order o).map (fun r => ⟨r.1, r.2, false⟩)
  | ToolCall.place_order => (place_order o).map (fun r => ⟨r.1, r.2, true⟩)

/-- Loop-local turn state: the session order and transcript as mutated so
far during the turn. -/
structure TurnST where
  order : Order
  transcript : List Message
deriving DecidableEq

/-- Outcome of the bounded tool loop for one turn: a plain-text reply (with
the finished flag the turn establishes), a failed tool call (recovered into
an apology), an invalid tool call, or exhaustion of the loop bound. -/
inductive TurnOutcome where
  | reply (text : String) (ts : TurnST) (finished : Bool)
  | toolFailed (e : ToolError) (ts : TurnST)
  | invalidCall (name : String) (ts : TurnST)
  | exceeded
deriving DecidableEq

/-- Modelled from the spec (section 4.1): the explicit finite bound on the
tool-invocation loop of one turn. -/
def TOOL_LOOP_LIMIT : Nat := 10

/-- Apology reply used when a tool call fails and the error is recovered
locally (spec section 7). -/
def toolApology : String :=
  "Sorry, I could not do that. Could you try something else?"

/-- Apology reply used when the model requests an unknown tool or malformed
arguments (spec section 4.1). -/
def invalidApology : String :=
  "Sorry, something went wrong with that request."

/-- Fallback apology returned when the tool loop exhausts its bound without
producing plain text (spec section 4.1). -/
def fallbackApology : String :=
  "Sorry, I am having trouble completing your request right now."

/-- Modelled from the spec (section 4.1, backend source missing from src/):
the bounded tool loop of one turn. Each iteration consumes one model
response (the oracle stands for the external LLM, indexed by iteration).
Plain text ends the turn as the reply; an invalid call or a failed tool
call ends the turn with the loop state at that point (the failed call
commits nothing); a successful tool call appends a tool-result message and
loops again, except that a successful place_order finalizes the turn at
once, honoring the spec invariant that no further order mutation is
permitted once finished. Exhausted fuel yields the exceeded outcome. -/
def turnLoop (menu : List MenuItem) (oracle : Nat → ModelResp) :
    Nat → Nat → TurnST → TurnOutcome
  | 0, _, _ => TurnOutcome.exceeded
  | fuel + 1, i, ts =>
    match oracle i with
    | ModelResp.text s =>
        TurnOutcome.reply s
          { ts with transcript := ts.transcript ++ [⟨Role.assistant, s⟩] } false
    | ModelResp.invalid nm => TurnOutcome.invalidCall nm ts
    | ModelResp.call tc =>
        match runTool menu tc ts.order with
        | Except.error e => TurnOutcome.toolFailed e ts
        | Except.ok out =>
            if out.setFinished then
              TurnOutcome.reply out.text
                ⟨out.order, ts.transcript ++ [⟨Role.tool, out.text⟩]⟩ true
            else
              turnLoop menu oracle fuel (i + 1)
                ⟨out.order, ts.transcript ++ [⟨Role.tool, out.text⟩]⟩

/-- Modelled from the spec (sections 4.1 and 7): the chat-level error
taxonomy surfaced to the HTTP caller as non-2xx responses. -/
inductive ChatError where
  | sessionNotFound
  | orderAlreadyFinished
  | invalidToolCall (name : String)
  | toolLoopExceeded
deriving DecidableEq

/-- Result of one chat call as seen by the HTTP shim: the reply text, the
finished flag, and an optional error (an error is surfaced as a non-2xx
HTTP response carrying the error). -/
structure ChatReply where
  response : String
  finished : Bool
  error : Option ChatError
deriving DecidableEq

/-- Modelled from the spec (section 4.3): the process-wide session store,
keyed by session id. -/
abbrev Store := List (String × Session)

/-- Session lookup by id. -/
def lookupSession (st : Store) (sid : String) : Option Session :=
  match st with
  | [] => none
  | (k, s) :: rest => if k = sid then some s else lookupSession rest sid

/-- Replaces the session stored under an id, leaving other entries
untouched. -/
def updateSession (st : Store) (sid : String) (s2 : Session) : Store :=
  match st with
  | [] => []
  | (k, s) :: rest =>
      if k = sid then (k, s2) :: updateSession rest sid s2
      else (k, s) :: updateSession rest sid s2

/-- Modelled from the spec (section 4.1): start creates a session with an
empty order and the greeting the model produced as its first assistant
message. The fresh opaque id and the greeting are parameters, since id
generation and the model are external. -/
def start (st : Store) (sid : String) (greeting : String) : Store × ChatReply :=
  (st ++ [(sid, ⟨[⟨Role.assistant, greeting⟩], ⟨[], OrderStatus.opened⟩, false⟩)],
   ⟨greeting, false, none⟩)

/-- Modelled from the spec (sections 4.1 and 7, backend source missing from
src/): one chat call. An unknown session id fails with SessionNotFoundError
and leaves the store untouched; a finished session is rejected with
OrderAlreadyFinishedError (the recommended hard-fail choice) and leaves the
store untouched; otherwise the user message is appended and the bounded
tool loop runs. A reply commits the loop state; a failed or invalid tool
call commits the loop state up to the failure and answers with an apology;
an exhausted loop fails with ToolLoopExceededError, answers with the
fallback apology and commits nothing, so finished is not mutated. -/
def chat (menu : List MenuItem) (st : Store) (sid : String) (msg : String)
    (oracle : Nat → ModelResp) : Store × ChatReply :=
  match lookupSession st sid with
  | none => (st, ⟨"", false, some ChatError.sessionNotFound⟩)
  | some sess =>
    if sess.finished = true then
      (st, ⟨"", true, some ChatError.orderAlreadyFinished⟩)
    else
      match turnLoop menu oracle TOOL_LOOP_LIMIT 0
          ⟨sess.order, sess.transcript ++ [⟨Role.user, msg⟩]⟩ with
      | TurnOutcome.reply text ts fin =>
          (updateSession st sid ⟨ts.transcript, ts.order, fin⟩, ⟨text, fin, none⟩)
      | TurnOutcome.toolFailed _ ts =>
          (updateSession st sid
            ⟨ts.transcript ++ [⟨Role.assistant, toolApology⟩], ts.order, false⟩,
           ⟨toolApology, false, none⟩)
      | TurnOutcome.invalidCall nm ts =>
          (updateSession st sid
            ⟨ts.transcript ++ [⟨Role.assistant, invalidApology⟩], ts.order, false⟩,
           ⟨invalidApology, false, some (ChatError.invalidToolCall nm)⟩)
      | TurnOutcome.exceeded =>
          (st, ⟨fallbackApology, false, some ChatError.toolLoopExceeded⟩)

/-- Modelled from the spec (sections 3 and 4): the stores reachable from
the empty store through start and chat calls. -/
inductive Reachable (menu : List MenuItem) : Store → Prop
  | nil : Reachable menu []
  | strt (st : Store) (sid greeting : String) :
      Reachable menu st → Reachable menu (start st sid greeting).1
  | stp (st : Store) (sid msg : String) (oracle : Nat → ModelResp) :
      Reachable menu st → Reachable menu (chat menu st sid msg oracle).1

/-- The latte item of the concrete sample catalog. -/
def latteItem : MenuItem := ⟨"latte", 4, [("large", 1), ("decaf", 0)]⟩

/-- Concrete sample catalog used to exercise the definitions. -/
def sampleMenu : List MenuItem :=
  [latteItem, ⟨"espresso", 3, []⟩]

/-- The line price add_to_order computes for one plain latte. -/
def lattePrice : Rat :=
  (latteItem.basePrice + sumDeltas latteItem []) * ((1 : Nat) : Rat)

/-- Concrete store holding one fresh session, used to exercise chat. -/
def sampleStore : Store := (start [] "s1" "Welcome to the coffee shop!").1

/-- The state of the tool loop after a run of successful tool calls:
starting at iteration i in state ts, runTools returns the loop state after
the next k oracle responses, provided they are all tool calls that execute
successfully without finalizing the order (and none otherwise). Each
successful call commits its mutation into the carried state; this is the
commit-only-on-success discipline of spec section 7 made explicit. -/
def runTools (menu : List MenuItem) (oracle : Nat → ModelResp) :
    Nat → Nat → TurnST → Option TurnST
  | 0, _, ts => some ts
  | k + 1, i, ts =>
    match oracle i with
    | ModelResp.call tc =>
        match runTool menu tc ts.order with
        | Except.ok out =>
            if out.setFinished then none
            else
              runTools menu oracle k (i + 1)
                ⟨out.order, ts.transcript ++ [⟨Role.tool, out.text⟩]⟩
        | Except.error _ => none
    | _ => none

/-- Concrete model oracle whose first tool call succeeds (a latte) and
whose second fails (a teapot, not in the catalog). -/
def sampleOracle : Nat → ModelResp :=
  fun n =>
    match n with
    | 0 => ModelResp.call (ToolCall.add_to_order "latte" 1 [])
    | 1 => ModelResp.call (ToolCall.add_to_order "teapot" 1 [])
    | _ => ModelResp.text "done"

/-- Session-level invariant of the spec: a finished session has a placed
order. -/
def SessionInv (s : Session) : Prop :=
  s.finished = true → s.order.status = OrderStatus.placed

/-- Store-level invariant: every stored session satisfies SessionInv. -/
def StoreInv (st : Store) : Prop := ∀ p ∈ st, SessionInv p.2


end Barista

namespace Widget

/-- Roles of widget transcript messages (src/frontend/app/page.tsx lines
5-9; the widget transcript only holds user and assistant messages). -/
inductive WRole where
  | user
  | assistant
deriving DecidableEq

/-- One widget transcript message. The id produced by generateId is not
modelled: it is only a React list key. -/
structure WMsg where
  role : WRole
  content : String
deriving DecidableEq

/-- A chat request as issued on page.tsx lines 68-75: POST to /chat with a
JSON body holding exactly the fields message and session_id. -/
structure ChatRequest where
  method : String
  path : String
  message : String
  session_id : Option String
deriving DecidableEq

/-- A network request the widget can issue: POST /start with no body
(lines 28-30) or a chat request (lines 68-75). -/
inductive Request where
  | start (method : String) (path : String)
  | chat (r : ChatRequest)
deriving DecidableEq

/-- Which fetch, if any, is currently awaited. -/
inductive Pending where
  | start
  | chat
deriving DecidableEq

/-- The JSON fields of a /start response the widget reads
(page.tsx lines 31-34). -/
structure StartData where
  session_id : String
  response : String
  finished : Bool
deriving DecidableEq

/-- The JSON fields of a /chat response the widget reads (page.tsx lines
76-78): exactly response and finished. -/
structure ChatData where
  response : String
  finished : Bool
deriving DecidableEq

/-- Outcome of an awaited fetch: parsed response data, or a thrown network
error landing in the catch branch. -/
inductive FetchOutcome (α : Type) where
  | ok (d : α)
  | failed
deriving DecidableEq

/-- The React state of the Home component (page.tsx lines 16-20), plus a
pending field recording which fetch is in flight (implicit in the source
as the suspended async function). -/
structure WidgetState where
  messages : List WMsg
  input : String
  isLoading : Bool
  sessionId : Option String
  isFinished : Bool
  pending : Option Pending
deriving DecidableEq

/-- Apology message set when startConversation catches a fetch error
(page.tsx lines 36-43; the contraction of the source text is spelled
out). -/
def startApology : String :=
  "Sorry, I could not connect to the server. Please try again later."

/-- Apology message appended when sendMessage catches a fetch error
(page.tsx lines 80-84). -/
def chatApology : String :=
  "Sorry, something went wrong. Please try again."

/-- The JavaScript string trim used by the widget (input.trim() on page.tsx
lines 60-62), modelled over the character list: leading and trailing
whitespace removed. -/
def trimString (s : String) : String :=
  ⟨((s.data.dropWhile Char.isWhitespace).reverse.dropWhile Char.isWhitespace).reverse⟩

/-- startConversation up to its await (page.tsx lines 25-30): set loading
and issue POST /start. -/
def startConversationBegin (w : WidgetState) : WidgetState × Request :=
  ({ w with isLoading := true, pending := some Pending.start },
   Request.start "POST" "/start")

/-- startConversation after its await (page.tsx lines 31-45): on success
store the returned session id, make the transcript the single greeting
message and take the finished flag from the response; on a caught error
make the transcript the single apology message, touching neither sessionId
nor isFinished; either way clear loading. -/
def startConversationComplete (w : WidgetState) (out : FetchOutcome StartData) :
    WidgetState :=
  match out with
  | FetchOutcome.ok d =>
      { w with sessionId := some d.session_id,
               messages := [⟨WRole.assistant, d.response⟩],
               isFinished := d.finished,
               isLoading := false, pending := none }
  | FetchOutcome.failed =>
      { w with messages := [⟨WRole.assistant, startApology⟩],
               isLoading := false, pending := none }

/-- The guard on page.tsx line 60: sendMessage returns at once when the
trimmed input is empty, a request is already loading, or the session is
finished. -/
def sendGuard (w : WidgetState) : Bool :=
  (trimString w.input).isEmpty || w.isLoading || w.isFinished

/-- sendMessage up to its await (page.tsx lines 58-75): when the guard
passes, clear the input, append the trimmed user message, set loading and
issue POST /chat with body fields message and session_id. -/
def sendMessageBegin (w : WidgetState) : WidgetState × Option Request :=
  if sendGuard w then (w, none)
  else
    ({ w with input := "",
              messages := w.messages ++ [⟨WRole.user, trimString w.input⟩],
              isLoading := true, pending := some Pending.chat },
     some (Request.chat ⟨"POST", "/chat", trimString w.input, w.sessionId⟩))

/-- sendMessage after its await (page.tsx lines 76-86): on success append
the assistant response and take the finished flag from the response; on a
caught error append the apology, touching neither sessionId nor
isFinished; either way clear loading. -/
def sendMessageComplete (w : WidgetState) (out : FetchOutcome ChatData) :
    WidgetState :=
  match out with
  | FetchOutcome.ok d =>
      { w with messages := w.messages ++ [⟨WRole.assistant, d.response⟩],
               isFinished := d.finished,
               isLoading := false, pending := none }
  | FetchOutcome.failed =>
      { w with messages := w.messages ++ [⟨WRole.assistant, chatApology⟩],
               isLoading := false, pending := none }

/-- resetConversation (page.tsx lines 89-94): clear the transcript,
session id and finished flag, then start a new conversation. -/
def resetConversation (w : WidgetState) : WidgetState × Request :=
  startConversationBegin
    { w with messages := [], sessionId := none, isFinished := false }

/-- The two alternatives rendered in the input area
(page.tsx lines 144-172). -/
inductive InputArea where
  | resetControl
  | messageForm
deriving DecidableEq

/-- Which input area the widget renders (page.tsx line 144): the reset
control once finished, the message form otherwise. -/
def renderInputArea (w : WidgetState) : InputArea :=
  if w.isFinished then InputArea.resetControl else InputArea.messageForm

/-- The disabled attribute of the send button (page.tsx line 166). -/
def sendDisabled (w : WidgetState) : Bool :=
  w.isLoading || (trimString w.input).isEmpty

/-- The disabled attribute of the text input (page.tsx line 162). -/
def inputDisabled (w : WidgetState) : Bool := w.isLoading

/-- The user and network events the widget reacts to. -/
inductive Event where
  | typeInput (s : String)
  | submit
  | clickReset
  | startResult (out : FetchOutcome StartData)
  | chatResult (out : FetchOutcome ChatData)

/-- One transition of the widget, paired with the request it issues, if
any. typeInput updates the controlled input only while the form is
rendered (not finished) and the input is not disabled (not loading);
submit runs sendMessage; clickReset runs resetConversation and is only
deliverable while the reset control is rendered (finished); a completion
event applies the matching await continuation. -/
def step (w : WidgetState) (e : Event) : WidgetState × Option Request :=
  match e with
  | Event.typeInput s =>
      if w.isFinished = true ∨ w.isLoading = true then (w, none)
      else ({ w with input := s }, none)
  | Event.submit => sendMessageBegin w
  | Event.clickReset =>
      if w.isFinished = true then
        ((resetConversation w).1, some (resetConversation w).2)
      else (w, none)
  | Event.startResult out =>
      if w.pending = some Pending.start then (startConversationComplete w out, none)
      else (w, none)
  | Event.chatResult out =>
      if w.pending = some Pending.chat then (sendMessageComplete w out, none)
      else (w, none)

/-- The Home component state at mount, before the useEffect fires
(page.tsx lines 16-20). -/
def initialWidget : WidgetState := ⟨[], "", false, none, false, none⟩

/-- Mount: the useEffect on page.tsx lines 49-51 immediately runs
startConversation. -/
def mountWidget : WidgetState × Request := startConversationBegin initialWidget

/-- Widget states reachable from mount through events. -/
inductive ReachableW : WidgetState → Prop
  | mount : ReachableW mountWidget.1
  | stp (w : WidgetState) (e : Event) : ReachableW w → ReachableW (step w e).1

/-- Run-time invariants of the widget: isLoading mirrors the in-flight
fetch, a fetch is only in flight while the session is not finished, and a
start fetch is only in flight while the transcript is empty. -/
def WInv (w : WidgetState) : Prop :=
  w.isLoading = w.pending.isSome ∧
  (w.pending.isSome = true → w.isFinished = false) ∧
  (w.pending = some Pending.start → w.messages = [])


end Widget

namespace Barista


/-- C1: for a valid item name, positive quantity and modifier set that all
exist on the item, add_to_order succeeds, the new ledger is the old one
with one line appended whose quantity and modifiers are the requested ones
and whose line price is (basePrice + sum of modifier deltas) times the
quantity, and get_order reflects exactly that ledger. -/
theorem add_to_order_get_order_spec (menu : List MenuItem) (o : Order)
    (item : MenuItem) (itemName : String) (qty : Nat) (mods : List String)
    (hfind : findItem menu itemName = some item)
    (hq : 0 < qty)
    (hmods : ∀ m ∈ mods, (modifierDelta item m).isSome = true) :
    ∃ line : OrderLine, ∃ t : String, ∃ o2 : Order,
      add_to_order menu o itemName qty mods = Except.ok (t, o2) ∧
      o2.lines = o.lines ++ [line] ∧
      line.quantity = qty ∧
      line.modifiers = mods ∧
      line.linePrice = (item.basePrice + sumDeltas item mods) * (qty : Rat) ∧
      (get_order o2).lines = o.lines ++ [line] := by
  have hnone : mods.find? (fun m => (modifierDelta item m).isNone) = none := by
    rw [List.find?_eq_none]
    intro m hm
    have h := hmods m hm
    cases hmd : modifierDelta item m with
    | none => rw [hmd] at h; simp at h
    | some v => simp [hmd]
  refine ⟨⟨itemName, qty, mods, (item.basePrice + sumDeltas item mods) * (qty : Rat)⟩,
    "Added " ++ itemName ++ " to your order.",
    { o with lines := o.lines ++
        [⟨itemName, qty, mods, (item.basePrice + sumDeltas item mods) * (qty : Rat)⟩] },
    ?_, rfl, rfl, rfl, rfl, rfl⟩
  simp [add_to_order, hfind, hnone]

/-- Closed instance of the add_to_order and get_order round trip on the
sample catalog. -/
theorem add_to_order_get_order_witness :
    ∃ line : OrderLine, ∃ t : String, ∃ o2 : Order,
      add_to_order sampleMenu ⟨[], OrderStatus.opened⟩ "latte" 2 ["large"] =
        Except.ok (t, o2) ∧
      o2.lines = [] ++ [line] ∧
      line.quantity = 2 ∧
      line.modifiers = ["large"] ∧
      line.linePrice = ((4 : Rat) +
        sumDeltas ⟨"latte", 4, [("large", 1), ("decaf", 0)]⟩ ["large"]) * ((2 : Nat) : Rat) ∧
      (get_order o2).lines = [] ++ [line] :=
  add_to_order_get_order_spec sampleMenu ⟨[], OrderStatus.opened⟩
    ⟨"latte", 4, [("large", 1), ("decaf", 0)]⟩ "latte" 2 ["large"]
    (by decide) (by decide) (by decide)

/-- C3: place_order fails with OrderNotConfirmedError whenever the status
is not confirmed and on success sets the status to placed (and, through the
tool dispatcher, reports setFinished so the turn controller sets the
session finished flag); confirm_order fails with EmptyOrderError on an
order with zero lines and on success sets the status to confirmed. -/
theorem confirm_place_error_spec (menu : List MenuItem) :
    (∀ o : Order, o.status ≠ OrderStatus.confirmed →
        place_order o = Except.error ToolError.orderNotConfirmed) ∧
    (∀ o : Order, o.status = OrderStatus.confirmed →
        place_order o = Except.ok ("Your order has been placed.",
          { o with status := OrderStatus.placed })) ∧
    (∀ o : Order, o.lines = [] →
        confirm_order o = Except.error ToolError.emptyOrder) ∧
    (∀ o : Order, o.lines ≠ [] →
        confirm_order o = Except.ok (renderOrderText o,
          { o with status := OrderStatus.confirmed })) ∧
    (∀ (o : Order) (out : ToolOutcome),
        runTool menu ToolCall.place_order o = Except.ok out →
        out.setFinished = true ∧ out.order.status = OrderStatus.placed) := by
  refine ⟨?_, ?_, ?_, ?_, ?_⟩
  · intro o h; simp [place_order, h]
  · intro o h; simp [place_order, h]
  · intro o h; simp [confirm_order, h]
  · intro o h; simp [confirm_order, h]
  · intro o out h
    by_cases hc : o.status = OrderStatus.confirmed
    · simp only [runTool, place_order, if_pos hc, Except.map] at h
      injection h with h2
      rw [← h2]
      exact ⟨rfl, rfl⟩
    · simp only [runTool, place_order, if_neg hc, Except.map] at h
      exact absurd h (by simp)

/-- Closed instance of the confirm_order and place_order error contracts. -/
theorem confirm_place_error_witness :
    place_order ⟨[], OrderStatus.opened⟩ = Except.error ToolError.orderNotConfirmed ∧
    confirm_order ⟨[], OrderStatus.opened⟩ = Except.error ToolError.emptyOrder ∧
    place_order ⟨[⟨"latte", 1, [], 4⟩], OrderStatus.confirmed⟩ =
      Except.ok ("Your order has been placed.",
        ⟨[⟨"latte", 1, [], 4⟩], OrderStatus.placed⟩) :=
  ⟨(confirm_place_error_spec sampleMenu).1 ⟨[], OrderStatus.opened⟩ (by decide),
   (confirm_place_error_spec sampleMenu).2.2.1 ⟨[], OrderStatus.opened⟩ rfl,
   (confirm_place_error_spec sampleMenu).2.1 ⟨[⟨"latte", 1, [], 4⟩], OrderStatus.confirmed⟩ rfl⟩

/-- C6: a chat call whose session id does not reference an existing session
fails with SessionNotFoundError as an error value (surfaced by the HTTP
shim as a non-2xx response rather than a crash, since chat is a total
function) and neither creates nor mutates any session state. -/
theorem unknown_session_spec (menu : List MenuItem) (st : Store) (sid msg : String)
    (oracle : Nat → ModelResp) (h : lookupSession st sid = none) :
    chat menu st sid msg oracle = (st, ⟨"", false, some ChatError.sessionNotFound⟩) := by
  simp [chat, h]
theorem runTool_finished_placed (menu : List MenuItem) (tc : ToolCall) (o : Order)
    (out : ToolOutcome) (h : runTool menu tc o = Except.ok out) :
    out.setFinished = true → out.order.status = OrderStatus.placed := by
  intro hsf
  cases tc with
  | get_menu =>
      simp only [runTool] at h
      injection h with h2
      rw [← h2] at hsf
      exact absurd hsf (by simp)
  | add_to_order item qty mods =>
      cases hA : add_to_order menu o item qty mods with
      | error e =>
          simp only [runTool, hA, Except.map] at h
          exact Except.noConfusion h
      | ok r =>
          simp only [runTool, hA, Except.map] at h
          injection h with h2
          rw [← h2] at hsf
          exact absurd hsf (by simp)
  | get_order =>
      simp only [runTool] at h
      injection h with h2
      rw [← h2] at hsf
      exact absurd hsf (by simp)
  | calculate_total =>
      simp only [runTool] at h
      injection h with h2
      rw [← h2] at hsf
      exact absurd hsf (by simp)
  | confirm_order =>
      cases hA : confirm_order o with
      | error e =>
          simp only [runTool, hA, Except.map] at h
          exact Except.noConfusion h
      | ok r =>
          simp only [runTool, hA, Except.map] at h
          injection h with h2
          rw [← h2] at hsf
          exact absurd hsf (by simp)
  | place_order =>
      by_cases hc : o.status = OrderStatus.confirmed
      · simp only [runTool, place_order, if_pos hc, Except.map] at h
        injection h with h2
        rw [← h2]
      · simp only [runTool, place_order, if_neg hc, Except.map] at h
        exact Except.noConfusion h

theorem turnLoop_reply_finished_placed (menu : List MenuItem)
    (oracle : Nat → ModelResp) :
    ∀ (fuel i : Nat) (ts : TurnST) (t : String) (ts2 : TurnST),
      turnLoop menu oracle fuel i ts = TurnOutcome.reply t ts2 true →
      ts2.order.status = OrderStatus.placed := by
  intro fuel
  induction fuel with
  | zero =>
      intro i ts t ts2 h
      simp [turnLoop] at h
  | succ f ih =>
      intro i ts t ts2 h
      rw [turnLoop] at h
      cases ho : oracle i with
      | text s =>
          rw [ho] at h
          dsimp only at h
          simp only [TurnOutcome.reply.injEq] at h
          exact absurd h.2.2 (by simp)
      | invalid nm =>
          rw [ho] at h
          dsimp only at h
          exact TurnOutcome.noConfusion h
      | call tc =>
          rw [ho] at h
          dsimp only at h
          cases hr : runTool menu tc ts.order with
          | error e =>
              rw [hr] at h
              dsimp only at h
              exact TurnOutcome.noConfusion h
          | ok out =>
              rw [hr] at h
              dsimp only at h
              by_cases hsf : out.setFinished = true
              · rw [if_pos hsf] at h
                simp only [TurnOutcome.reply.injEq] at h
                rw [← h.2.1]
                exact runTool_finished_placed menu tc ts.order out hr hsf
              · rw [if_neg hsf] at h
                exact ih (i + 1) _ t ts2 h

theorem mem_updateSession (st : Store) (sid : String) (s2 : Session)
    (p : String × Session) (h : p ∈ updateSession st sid s2) :
    p.2 = s2 ∨ p ∈ st := by
  induction st with
  | nil => simp [updateSession] at h
  | cons q rest ih =>
      obtain ⟨k, s⟩ := q
      by_cases hk : k = sid
      · rw [updateSession, if_pos hk] at h
        rcases List.mem_cons.mp h with h1 | h1
        · left; rw [h1]
        · rcases ih h1 with h2 | h2
          · left; exact h2
          · right; exact List.mem_cons_of_mem _ h2
      · rw [updateSession, if_neg hk] at h
        rcases List.mem_cons.mp h with h1 | h1
        · right; rw [h1]; exact List.mem_cons_self _ _
        · rcases ih h1 with h2 | h2
          · left; exact h2
          · right; exact List.mem_cons_of_mem _ h2

theorem StoreInv_updateSession (st : Store) (sid : String) (s2 : Session)
    (h : StoreInv st) (h2 : SessionInv s2) : StoreInv (updateSession st sid s2) := by
  intro p hp
  rcases mem_updateSession st sid s2 p hp with h3 | h3
  · rw [h3]; exact h2
  · exact h p h3

theorem lookupSession_updateSession (st : Store) (sid : String) (s2 : Session) :
    ∀ sess, lookupSession st sid = some sess →
      lookupSession (updateSession st sid s2) sid = some s2 := by
  induction st with
  | nil => intro sess h; simp [lookupSession] at h
  | cons q rest ih =>
      intro sess h
      obtain ⟨k, s⟩ := q
      by_cases hk : k = sid
      · rw [updateSession, if_pos hk, lookupSession, if_pos hk]
      · rw [updateSession, if_neg hk, lookupSession, if_neg hk]
        rw [lookupSession, if_neg hk] at h
        exact ih sess h

theorem chat_preserves_StoreInv (menu : List MenuItem) (st : Store)
    (sid msg : String) (oracle : Nat → ModelResp) (h : StoreInv st) :
    StoreInv (chat menu st sid msg oracle).1 := by
  cases hl : lookupSession st sid with
  | none => simp only [chat, hl]; exact h
  | some sess =>
      by_cases hf : sess.finished = true
      · simp only [chat, hl, if_pos hf]; exact h
      · simp only [chat, hl, if_neg hf]
        cases ht : turnLoop menu oracle TOOL_LOOP_LIMIT 0
            ⟨sess.order, sess.transcript ++ [⟨Role.user, msg⟩]⟩ with
        | reply t ts fin =>
            refine StoreInv_updateSession st sid _ h ?_
            intro hfin
            dsimp only at hfin
            exact turnLoop_reply_finished_placed menu oracle TOOL_LOOP_LIMIT 0
              _ t ts (hfin ▸ ht)
        | toolFailed e ts =>
            exact StoreInv_updateSession st sid _ h (by intro hfin; simp at hfin)
        | invalidCall nm ts =>
            exact StoreInv_updateSession st sid _ h (by intro hfin; simp at hfin)
        | exceeded => exact h

theorem start_preserves_StoreInv (st : Store) (sid g : String) (h : StoreInv st) :
    StoreInv (start st sid g).1 := by
  intro p hp
  rcases List.mem_append.mp hp with h1 | h1
  · exact h p h1
  · rcases List.mem_singleton.mp h1 with h2
    rw [h2]
    intro hfin
    simp at hfin

theorem reachable_StoreInv (menu : List MenuItem) (st : Store)
    (h : Reachable menu st) : StoreInv st := by
  induction h with
  | nil => intro p hp; simp at hp
  | strt st2 sid g _ ih => exact start_preserves_StoreInv st2 sid g ih
  | stp st2 sid msg oracle _ ih => exact chat_preserves_StoreInv menu st2 sid msg oracle ih

/-- C2: in every reachable store, a finished session has a placed order,
and a chat call against a finished session is rejected with
OrderAlreadyFinishedError and leaves the whole store unchanged, so it
neither mutates the order nor appends user messages. -/
theorem finished_invariant_spec (menu : List MenuItem) (st : Store)
    (h : Reachable menu st) :
    (∀ p ∈ st, p.2.finished = true → p.2.order.status = OrderStatus.placed) ∧
    (∀ (sid : String) (sess : Session), lookupSession st sid = some sess →
      sess.finished = true → ∀ (msg : String) (oracle : Nat → ModelResp),
        chat menu st sid msg oracle =
          (st, ⟨"", true, some ChatError.orderAlreadyFinished⟩)) := by
  constructor
  · exact fun p hp => reachable_StoreInv menu st h p hp
  · intro sid sess hl hf msg oracle
    simp only [chat, hl, if_pos hf]

/-- Closed instance of the finished-session invariant on a concrete
reachable store. -/
theorem finished_invariant_witness :
    (∀ p ∈ (start ([] : Store) "s1" "Welcome to the coffee shop!").1,
        p.2.finished = true → p.2.order.status = OrderStatus.placed) ∧
    (∀ (sid : String) (sess : Session),
        lookupSession (start ([] : Store) "s1" "Welcome to the coffee shop!").1 sid =
          some sess →
        sess.finished = true → ∀ (msg : String) (oracle : Nat → ModelResp),
          chat sampleMenu (start ([] : Store) "s1" "Welcome to the coffee shop!").1
              sid msg oracle =
            ((start ([] : Store) "s1" "Welcome to the coffee shop!").1,
             ⟨"", true, some ChatError.orderAlreadyFinished⟩)) :=
  finished_invariant_spec sampleMenu _
    (Reachable.strt [] "s1" "Welcome to the coffee shop!" Reachable.nil)

theorem turnLoop_oracle_congr (menu : List MenuItem) (o1 o2 : Nat → ModelResp) :
    ∀ (fuel i : Nat) (ts : TurnST),
      (∀ j, i ≤ j → j < i + fuel → o1 j = o2 j) →
      turnLoop menu o1 fuel i ts = turnLoop menu o2 fuel i ts := by
  intro fuel
  induction fuel with
  | zero => intro i ts _; rfl
  | succ f ih =>
      intro i ts hagree
      have h0 : o1 i = o2 i := hagree i (le_refl i) (by omega)
      rw [turnLoop, turnLoop, ← h0]
      cases ho : o1 i with
      | text s => rfl
      | invalid nm => rfl
      | call tc =>
          dsimp only
          cases hr : runTool menu tc ts.order with
          | error e => rfl
          | ok out =>
              dsimp only
              by_cases hsf : out.setFinished = true
              · rw [if_pos hsf, if_pos hsf]
              · rw [if_neg hsf, if_neg hsf]
                exact ih (i + 1) _ (fun j h1 h2 => hagree j (by omega) (by omega))

/-- C4: the tool loop of one chat turn is bounded by TOOL_LOOP_LIMIT: the
turn depends only on the first TOOL_LOOP_LIMIT model responses, and if the
loop exhausts its bound without plain text the turn fails with
ToolLoopExceededError, answers with the fallback apology, and leaves the
store (in particular the session finished flag) unchanged. -/
theorem tool_loop_bound_spec (menu : List MenuItem) (st : Store) (sid msg : String)
    (oracle : Nat → ModelResp) (sess : Session)
    (hs : lookupSession st sid = some sess) (hf : sess.finished = false) :
    (∀ oracle2 : Nat → ModelResp,
        (∀ i, i < TOOL_LOOP_LIMIT → oracle i = oracle2 i) →
        chat menu st sid msg oracle = chat menu st sid msg oracle2) ∧
    (turnLoop menu oracle TOOL_LOOP_LIMIT 0
        ⟨sess.order, sess.transcript ++ [⟨Role.user, msg⟩]⟩ = TurnOutcome.exceeded →
      chat menu st sid msg oracle =
        (st, ⟨fallbackApology, false, some ChatError.toolLoopExceeded⟩)) := by
  have hf2 : ¬ sess.finished = true := by rw [hf]; simp
  constructor
  · intro oracle2 hagree
    have hcongr := turnLoop_oracle_congr menu oracle oracle2 TOOL_LOOP_LIMIT 0
      ⟨sess.order, sess.transcript ++ [⟨Role.user, msg⟩]⟩
      (fun j _ h2 => hagree j (by omega))
    simp only [chat, hs, if_neg hf2, hcongr]
  · intro hex
    simp only [chat, hs, if_neg hf2, hex]

/-- Closed instance of the exhausted tool loop: a model that keeps calling
get_menu forever makes the turn fail with the fallback apology and an
unchanged store. -/
theorem tool_loop_bound_witness :
    chat sampleMenu sampleStore "s1" "another coffee"
        (fun _ => ModelResp.call ToolCall.get_menu) =
      (sampleStore, ⟨fallbackApology, false, some ChatError.toolLoopExceeded⟩) :=
  (tool_loop_bound_spec sampleMenu sampleStore "s1" "another coffee"
      (fun _ => ModelResp.call ToolCall.get_menu)
      ⟨[⟨Role.assistant, "Welcome to the coffee shop!"⟩], ⟨[], OrderStatus.opened⟩, false⟩
      (by decide) rfl).2 (by decide)

theorem turnLoop_first_toolFailed (menu : List MenuItem) (oracle : Nat → ModelResp)
    (f i : Nat) (ts : TurnST) (tc : ToolCall) (e : ToolError)
    (h0 : oracle i = ModelResp.call tc)
    (he : runTool menu tc ts.order = Except.error e) :
    turnLoop menu oracle (f + 1) i ts = TurnOutcome.toolFailed e ts := by
  simp only [turnLoop, h0, he]

theorem turnLoop_toolFailed_at (menu : List MenuItem) (oracle : Nat → ModelResp) :
    ∀ (k f i : Nat) (ts ts2 : TurnST) (tc : ToolCall) (e : ToolError),
      runTools menu oracle k i ts = some ts2 →
      oracle (i + k) = ModelResp.call tc →
      runTool menu tc ts2.order = Except.error e →
      k < f →
      turnLoop menu oracle f i ts = TurnOutcome.toolFailed e ts2 := by
  intro k
  induction k with
  | zero =>
      intro f i ts ts2 tc e hpre h0 he hkf
      simp only [runTools, Option.some.injEq] at hpre
      subst hpre
      cases f with
      | zero => omega
      | succ f2 => exact turnLoop_first_toolFailed menu oracle f2 i ts tc e h0 he
  | succ k2 ih =>
      intro f i ts ts2 tc e hpre h0 he hkf
      rw [runTools] at hpre
      cases ho : oracle i with
      | text s =>
          rw [ho] at hpre
          dsimp only at hpre
          exact Option.noConfusion hpre
      | invalid nm =>
          rw [ho] at hpre
          dsimp only at hpre
          exact Option.noConfusion hpre
      | call tc0 =>
          rw [ho] at hpre
          dsimp only at hpre
          cases hr : runTool menu tc0 ts.order with
          | error e0 =>
              rw [hr] at hpre
              dsimp only at hpre
              exact Option.noConfusion hpre
          | ok out =>
              rw [hr] at hpre
              dsimp only at hpre
              by_cases hsf : out.setFinished = true
              · rw [if_pos hsf] at hpre
                exact Option.noConfusion hpre
              · rw [if_neg hsf] at hpre
                cases f with
                | zero => omega
                | succ f2 =>
                    rw [turnLoop, ho]
                    dsimp only
                    rw [hr]
                    dsimp only
                    rw [if_neg hsf]
                    exact ih f2 (i + 1) _ ts2 tc e hpre
                      (by rw [show i + 1 + k2 = i + (k2 + 1) from by omega]; exact h0)
                      he (by omega)

/-- C5: for every turn in which a tool call fails, at any iteration k of
the loop (so after any run of successful tool calls, whose mutations are
already committed into the carried state), the turn answers with the
apology, the stored order is exactly the one the successful calls built
(the failing call commits nothing: mutations are committed only when the
corresponding tool call fully succeeds), and the finished flag is still
false; the transcript gains only the tool results of the successful calls
and the apology. For k = 0 this is the spec scenario: the ledger is
exactly the one from before the turn. -/
theorem tool_failure_apology_spec (menu : List MenuItem) (st : Store)
    (sid msg : String) (oracle : Nat → ModelResp) (sess : Session)
    (k : Nat) (ts : TurnST) (tc : ToolCall) (e : ToolError)
    (hs : lookupSession st sid = some sess)
    (hf : sess.finished = false)
    (hk : k < TOOL_LOOP_LIMIT)
    (hpre : runTools menu oracle k 0
      ⟨sess.order, sess.transcript ++ [⟨Role.user, msg⟩]⟩ = some ts)
    (h0 : oracle k = ModelResp.call tc)
    (he : runTool menu tc ts.order = Except.error e) :
    chat menu st sid msg oracle =
      (updateSession st sid
        ⟨ts.transcript ++ [⟨Role.assistant, toolApology⟩], ts.order, false⟩,
       ⟨toolApology, false, none⟩) ∧
    lookupSession (chat menu st sid msg oracle).1 sid =
      some ⟨ts.transcript ++ [⟨Role.assistant, toolApology⟩], ts.order, false⟩ := by
  have hf2 : ¬ sess.finished = true := by rw [hf]; simp
  have hloop : turnLoop menu oracle TOOL_LOOP_LIMIT 0
      ⟨sess.order, sess.transcript ++ [⟨Role.user, msg⟩]⟩ =
      TurnOutcome.toolFailed e ts :=
    turnLoop_toolFailed_at menu oracle k TOOL_LOOP_LIMIT 0
      ⟨sess.order, sess.transcript ++ [⟨Role.user, msg⟩]⟩ ts tc e hpre
      (by simpa using h0) he hk
  have hmain : chat menu st sid msg oracle =
      (updateSession st sid
        ⟨ts.transcript ++ [⟨Role.assistant, toolApology⟩], ts.order, false⟩,
       ⟨toolApology, false, none⟩) := by
    simp only [chat, hs, if_neg hf2, hloop]
  refine ⟨hmain, ?_⟩
  rw [hmain]
  exact lookupSession_updateSession st sid _ sess hs

/-- Closed instance of the failed-tool-call turn in which the failure
follows a successful tool call: the model first adds a latte, whose
mutation is committed, then asks for a teapot, which is not in the
catalog; the turn replies with the apology, the stored ledger is exactly
the one line the successful call appended, and the finished flag is still
false. -/
theorem tool_failure_apology_witness :
    chat sampleMenu sampleStore "s1" "two lattes please" sampleOracle =
      (updateSession sampleStore "s1"
        ⟨[⟨Role.assistant, "Welcome to the coffee shop!"⟩,
          ⟨Role.user, "two lattes please"⟩,
          ⟨Role.tool, "Added latte to your order."⟩] ++
            [⟨Role.assistant, toolApology⟩],
         ⟨[⟨"latte", 1, [], lattePrice⟩], OrderStatus.opened⟩, false⟩,
       ⟨toolApology, false, none⟩) ∧
    lookupSession
        (chat sampleMenu sampleStore "s1" "two lattes please" sampleOracle).1 "s1" =
      some ⟨[⟨Role.assistant, "Welcome to the coffee shop!"⟩,
             ⟨Role.user, "two lattes please"⟩,
             ⟨Role.tool, "Added latte to your order."⟩] ++
               [⟨Role.assistant, toolApology⟩],
            ⟨[⟨"latte", 1, [], lattePrice⟩], OrderStatus.opened⟩, false⟩ :=
  tool_failure_apology_spec sampleMenu sampleStore "s1" "two lattes please"
    sampleOracle
    ⟨[⟨Role.assistant, "Welcome to the coffee shop!"⟩], ⟨[], OrderStatus.opened⟩, false⟩
    1
    ⟨⟨[⟨"latte", 1, [], lattePrice⟩], OrderStatus.opened⟩,
     [⟨Role.assistant, "Welcome to the coffee shop!"⟩,
      ⟨Role.user, "two lattes please"⟩,
      ⟨Role.tool, "Added latte to your order."⟩]⟩
    (ToolCall.add_to_order "teapot" 1 []) (ToolError.unknownItem "teapot")
    (by decide) rfl (by decide) rfl rfl rfl

/-- Closed instance of the unknown-session behaviour. -/
theorem unknown_session_witness :
    chat sampleMenu sampleStore "unknown-session-id" "hi"
        (fun _ => ModelResp.text "hello") =
      (sampleStore, ⟨"", false, some ChatError.sessionNotFound⟩) :=
  unknown_session_spec sampleMenu sampleStore "unknown-session-id" "hi"
    (fun _ => ModelResp.text "hello") (by decide)

end Barista

namespace Widget

theorem winv_mount : WInv mountWidget.1 :=
  ⟨rfl, fun _ => rfl, fun _ => rfl⟩

theorem sendGuard_false (w : WidgetState) (hg : ¬ sendGuard w = true) :
    (trimString w.input).isEmpty = false ∧ w.isLoading = false ∧ w.isFinished = false := by
  simp only [sendGuard, Bool.or_eq_true, not_or, Bool.not_eq_true] at hg
  exact ⟨hg.1.1, hg.1.2, hg.2⟩

theorem winv_step (w : WidgetState) (e : Event) (h : WInv w) : WInv (step w e).1 := by
  obtain ⟨h1, h2, h3⟩ := h
  cases e with
  | typeInput s =>
      by_cases hc : w.isFinished = true ∨ w.isLoading = true
      · simp only [step, if_pos hc]
        exact ⟨h1, h2, h3⟩
      · simp only [step, if_neg hc]
        exact ⟨h1, h2, h3⟩
  | submit =>
      by_cases hg : sendGuard w = true
      · simp only [step, sendMessageBegin, if_pos hg]
        exact ⟨h1, h2, h3⟩
      · obtain ⟨_, _, hfin⟩ := sendGuard_false w hg
        simp only [step, sendMessageBegin, if_neg hg]
        exact ⟨rfl, fun _ => hfin, fun hp => absurd hp (by simp)⟩
  | clickReset =>
      by_cases hf : w.isFinished = true
      · simp only [step, if_pos hf, resetConversation, startConversationBegin]
        exact ⟨rfl, fun _ => rfl, fun _ => rfl⟩
      · simp only [step, if_neg hf]
        exact ⟨h1, h2, h3⟩
  | startResult out =>
      by_cases hp : w.pending = some Pending.start
      · simp only [step, if_pos hp]
        cases out with
        | ok d =>
            dsimp only [startConversationComplete]
            exact ⟨rfl, fun hx => absurd hx (by simp), fun hx => absurd hx (by simp)⟩
        | failed =>
            dsimp only [startConversationComplete]
            exact ⟨rfl, fun hx => absurd hx (by simp), fun hx => absurd hx (by simp)⟩
      · simp only [step, if_neg hp]
        exact ⟨h1, h2, h3⟩
  | chatResult out =>
      by_cases hp : w.pending = some Pending.chat
      · simp only [step, if_pos hp]
        cases out with
        | ok d =>
            dsimp only [sendMessageComplete]
            exact ⟨rfl, fun hx => absurd hx (by simp), fun hx => absurd hx (by simp)⟩
        | failed =>
            dsimp only [sendMessageComplete]
            exact ⟨rfl, fun hx => absurd hx (by simp), fun hx => absurd hx (by simp)⟩
      · simp only [step, if_neg hp]
        exact ⟨h1, h2, h3⟩

theorem reachableW_WInv (w : WidgetState) (h : ReachableW w) : WInv w := by
  induction h with
  | mount => exact winv_mount
  | stp w2 e _ ih => exact winv_step w2 e ih

/-- C7: every chat request the widget issues is a POST to the /chat
endpoint whose body has exactly the fields message (the trimmed user
input) and session_id (the widget sessionId state, which a successful
start sets to the session_id the backend returned, and which chat
completions never change), and the widget consumes exactly the response
and finished fields of the chat response. -/
theorem chat_request_shape_spec (w : WidgetState) (e : Event) (w2 : WidgetState)
    (req : ChatRequest) (h : step w e = (w2, some (Request.chat req))) :
    req.method = "POST" ∧ req.path = "/chat" ∧
    req.message = trimString w.input ∧ req.session_id = w.sessionId ∧
    (∀ d : ChatData, sendMessageComplete w2 (FetchOutcome.ok d) =
      { w2 with messages := w2.messages ++ [⟨WRole.assistant, d.response⟩],
                isFinished := d.finished, isLoading := false, pending := none }) ∧
    (∀ (w3 : WidgetState) (d : StartData),
      (startConversationComplete w3 (FetchOutcome.ok d)).sessionId =
        some d.session_id) ∧
    (∀ (w3 : WidgetState) (out : FetchOutcome ChatData),
      (sendMessageComplete w3 out).sessionId = w3.sessionId) := by
  have hgen3 : ∀ (w3 : WidgetState) (out : FetchOutcome ChatData),
      (sendMessageComplete w3 out).sessionId = w3.sessionId := by
    intro w3 out
    cases out <;> rfl
  cases e with
  | typeInput s =>
      by_cases hc : w.isFinished = true ∨ w.isLoading = true
      · simp only [step, if_pos hc, Prod.mk.injEq] at h
        exact absurd h.2 (by simp)
      · simp only [step, if_neg hc, Prod.mk.injEq] at h
        exact absurd h.2 (by simp)
  | submit =>
      by_cases hg : sendGuard w = true
      · simp only [step, sendMessageBegin, if_pos hg, Prod.mk.injEq] at h
        exact absurd h.2 (by simp)
      · simp only [step, sendMessageBegin, if_neg hg, Prod.mk.injEq] at h
        injection h.2 with hreq2
        injection hreq2 with hreq3
        rw [← hreq3]
        exact ⟨rfl, rfl, rfl, rfl, fun d => rfl, fun w3 d => rfl, hgen3⟩
  | clickReset =>
      by_cases hf : w.isFinished = true
      · simp only [step, if_pos hf, resetConversation, startConversationBegin,
          Prod.mk.injEq] at h
        exact absurd h.2 (by simp)
      · simp only [step, if_neg hf, Prod.mk.injEq] at h
        exact absurd h.2 (by simp)
  | startResult out =>
      by_cases hp : w.pending = some Pending.start
      · simp only [step, if_pos hp, Prod.mk.injEq] at h
        exact absurd h.2 (by simp)
      · simp only [step, if_neg hp, Prod.mk.injEq] at h
        exact absurd h.2 (by simp)
  | chatResult out =>
      by_cases hp : w.pending = some Pending.chat
      · simp only [step, if_pos hp, Prod.mk.injEq] at h
        exact absurd h.2 (by simp)
      · simp only [step, if_neg hp, Prod.mk.injEq] at h
        exact absurd h.2 (by simp)

/-- Closed instance of the chat request shape for a concrete submit. -/
theorem chat_request_shape_witness :
    (⟨"POST", "/chat", "hi", some "sid-1"⟩ : ChatRequest).method = "POST" ∧
    (⟨"POST", "/chat", "hi", some "sid-1"⟩ : ChatRequest).path = "/chat" ∧
    (⟨"POST", "/chat", "hi", some "sid-1"⟩ : ChatRequest).message =
      trimString (⟨[], "hi", false, some "sid-1", false, none⟩ : WidgetState).input ∧
    (⟨"POST", "/chat", "hi", some "sid-1"⟩ : ChatRequest).session_id =
      (⟨[], "hi", false, some "sid-1", false, none⟩ : WidgetState).sessionId ∧
    (∀ d : ChatData, sendMessageComplete
        (⟨[⟨WRole.user, "hi"⟩], "", true, some "sid-1", false,
          some Pending.chat⟩ : WidgetState) (FetchOutcome.ok d) =
      { (⟨[⟨WRole.user, "hi"⟩], "", true, some "sid-1", false,
          some Pending.chat⟩ : WidgetState) with
        messages := (⟨[⟨WRole.user, "hi"⟩], "", true, some "sid-1", false,
          some Pending.chat⟩ : WidgetState).messages ++ [⟨WRole.assistant, d.response⟩],
        isFinished := d.finished, isLoading := false, pending := none }) ∧
    (∀ (w3 : WidgetState) (d : StartData),
      (startConversationComplete w3 (FetchOutcome.ok d)).sessionId =
        some d.session_id) ∧
    (∀ (w3 : WidgetState) (out : FetchOutcome ChatData),
      (sendMessageComplete w3 out).sessionId = w3.sessionId) :=
  chat_request_shape_spec (⟨[], "hi", false, some "sid-1", false, none⟩ : WidgetState)
    Event.submit
    (⟨[⟨WRole.user, "hi"⟩], "", true, some "sid-1", false, some Pending.chat⟩ : WidgetState)
    (⟨"POST", "/chat", "hi", some "sid-1"⟩ : ChatRequest) (by decide)

/-- C8: once the finished flag is true the widget cannot issue another
chat request: submit leaves the state unchanged and issues nothing, the
input area renders the reset control instead of the message form, the only
request any event can issue is the start request of resetConversation, and
the reset click indeed runs resetConversation, beginning a new session. -/
theorem finished_no_chat_spec (w : WidgetState) (h : w.isFinished = true) :
    step w Event.submit = (w, none) ∧
    renderInputArea w = InputArea.resetControl ∧
    (∀ (e : Event) (w2 : WidgetState) (r : Request),
      step w e = (w2, some r) → r = Request.start "POST" "/start") ∧
    step w Event.clickReset = ((resetConversation w).1, some (resetConversation w).2) := by
  have hguard : sendGuard w = true := by
    simp [sendGuard, h]
  refine ⟨?_, ?_, ?_, ?_⟩
  · simp only [step, sendMessageBegin, if_pos hguard]
  · simp [renderInputArea, h]
  · intro e w2 r hr
    cases e with
    | typeInput s =>
        simp only [step, if_pos (Or.inl h), Prod.mk.injEq] at hr
        exact absurd hr.2 (by simp)
    | submit =>
        simp only [step, sendMessageBegin, if_pos hguard, Prod.mk.injEq] at hr
        exact absurd hr.2 (by simp)
    | clickReset =>
        simp only [step, if_pos h, Prod.mk.injEq, Option.some.injEq] at hr
        rw [← hr.2]
        rfl
    | startResult out =>
        by_cases hp : w.pending = some Pending.start
        · simp only [step, if_pos hp, Prod.mk.injEq] at hr
          exact absurd hr.2 (by simp)
        · simp only [step, if_neg hp, Prod.mk.injEq] at hr
          exact absurd hr.2 (by simp)
    | chatResult out =>
        by_cases hp : w.pending = some Pending.chat
        · simp only [step, if_pos hp, Prod.mk.injEq] at hr
          exact absurd hr.2 (by simp)
        · simp only [step, if_neg hp, Prod.mk.injEq] at hr
          exact absurd hr.2 (by simp)
  · simp only [step, if_pos h]

/-- Closed instance of the finished widget refusing to chat. -/
theorem finished_no_chat_witness :
    step (⟨[⟨WRole.assistant, "Enjoy!"⟩], "", false, some "sid-1", true,
        none⟩ : WidgetState) Event.submit =
      ((⟨[⟨WRole.assistant, "Enjoy!"⟩], "", false, some "sid-1", true,
        none⟩ : WidgetState), none) ∧
    renderInputArea (⟨[⟨WRole.assistant, "Enjoy!"⟩], "", false, some "sid-1", true,
        none⟩ : WidgetState) = InputArea.resetControl ∧
    (∀ (e : Event) (w2 : WidgetState) (r : Request),
      step (⟨[⟨WRole.assistant, "Enjoy!"⟩], "", false, some "sid-1", true,
        none⟩ : WidgetState) e = (w2, some r) → r = Request.start "POST" "/start") ∧
    step (⟨[⟨WRole.assistant, "Enjoy!"⟩], "", false, some "sid-1", true,
        none⟩ : WidgetState) Event.clickReset =
      ((resetConversation (⟨[⟨WRole.assistant, "Enjoy!"⟩], "", false, some "sid-1",
          true, none⟩ : WidgetState)).1,
       some (resetConversation (⟨[⟨WRole.assistant, "Enjoy!"⟩], "", false,
          some "sid-1", true, none⟩ : WidgetState)).2) :=
  finished_no_chat_spec (⟨[⟨WRole.assistant, "Enjoy!"⟩], "", false, some "sid-1",
    true, none⟩ : WidgetState) rfl

/-- C9: the widget never has two requests in flight and never sends an
empty or whitespace-only chat message: submit is a no-op issuing nothing
when the trimmed input is empty or a request is loading; the send button
is disabled exactly under those conditions; any event that issues a
request does so from a state with no fetch pending; and every issued chat
request carries the trimmed input, which is non-empty. -/
theorem single_flight_spec (w : WidgetState) (h : ReachableW w) :
    (((trimString w.input).isEmpty = true ∨ w.isLoading = true) →
      step w Event.submit = (w, none)) ∧
    (sendDisabled w = true ↔ ((trimString w.input).isEmpty = true ∨ w.isLoading = true)) ∧
    (∀ (e : Event) (w2 : WidgetState) (r : Request),
      step w e = (w2, some r) → w.pending = none) ∧
    (∀ (e : Event) (w2 : WidgetState) (req : ChatRequest),
      step w e = (w2, some (Request.chat req)) →
      req.message = trimString w.input ∧ req.message.isEmpty = false) := by
  obtain ⟨h1, h2, h3⟩ := reachableW_WInv w h
  refine ⟨?_, ?_, ?_, ?_⟩
  · intro hc
    have hguard : sendGuard w = true := by
      rcases hc with hc | hc <;> simp [sendGuard, hc]
    simp only [step, sendMessageBegin, if_pos hguard]
  · simp only [sendDisabled, Bool.or_eq_true]
    exact or_comm
  · intro e w2 r hr
    cases e with
    | typeInput s =>
        by_cases hc : w.isFinished = true ∨ w.isLoading = true
        · simp only [step, if_pos hc, Prod.mk.injEq] at hr
          exact absurd hr.2 (by simp)
        · simp only [step, if_neg hc, Prod.mk.injEq] at hr
          exact absurd hr.2 (by simp)
    | submit =>
        by_cases hg : sendGuard w = true
        · simp only [step, sendMessageBegin, if_pos hg, Prod.mk.injEq] at hr
          exact absurd hr.2 (by simp)
        · obtain ⟨_, hload, _⟩ := sendGuard_false w hg
          have hps : w.pending.isSome = false := by rw [← h1]; exact hload
          cases hpv : w.pending with
          | none => rfl
          | some p => rw [hpv] at hps; simp at hps
    | clickReset =>
        by_cases hf : w.isFinished = true
        · have hps : w.pending.isSome = false := by
            by_cases hp : w.pending.isSome = true
            · exact absurd (h2 hp) (by rw [hf]; simp)
            · simpa using hp
          cases hpv : w.pending with
          | none => rfl
          | some p => rw [hpv] at hps; simp at hps
        · simp only [step, if_neg hf, Prod.mk.injEq] at hr
          exact absurd hr.2 (by simp)
    | startResult out =>
        by_cases hp : w.pending = some Pending.start
        · simp only [step, if_pos hp, Prod.mk.injEq] at hr
          exact absurd hr.2 (by simp)
        · simp only [step, if_neg hp, Prod.mk.injEq] at hr
          exact absurd hr.2 (by simp)
    | chatResult out =>
        by_cases hp : w.pending = some Pending.chat
        · simp only [step, if_pos hp, Prod.mk.injEq] at hr
          exact absurd hr.2 (by simp)
        · simp only [step, if_neg hp, Prod.mk.injEq] at hr
          exact absurd hr.2 (by simp)
  · intro e w2 req hr
    cases e with
    | typeInput s =>
        by_cases hc : w.isFinished = true ∨ w.isLoading = true
        · simp only [step, if_pos hc, Prod.mk.injEq] at hr
          exact absurd hr.2 (by simp)
        · simp only [step, if_neg hc, Prod.mk.injEq] at hr
          exact absurd hr.2 (by simp)
    | submit =>
        by_cases hg : sendGuard w = true
        · simp only [step, sendMessageBegin, if_pos hg, Prod.mk.injEq] at hr
          exact absurd hr.2 (by simp)
        · obtain ⟨hempty, _, _⟩ := sendGuard_false w hg
          simp only [step, sendMessageBegin, if_neg hg, Prod.mk.injEq] at hr
          injection hr.2 with hr2
          injection hr2 with hr3
          rw [← hr3]
          exact ⟨rfl, hempty⟩
    | clickReset =>
        by_cases hf : w.isFinished = true
        · simp only [step, if_pos hf, resetConversation, startConversationBegin,
            Prod.mk.injEq] at hr
          exact absurd hr.2 (by simp)
        · simp only [step, if_neg hf, Prod.mk.injEq] at hr
          exact absurd hr.2 (by simp)
    | startResult out =>
        by_cases hp : w.pending = some Pending.start
        · simp only [step, if_pos hp, Prod.mk.injEq] at hr
          exact absurd hr.2 (by simp)
        · simp only [step, if_neg hp, Prod.mk.injEq] at hr
          exact absurd hr.2 (by simp)
    | chatResult out =>
        by_cases hp : w.pending = some Pending.chat
        · simp only [step, if_pos hp, Prod.mk.injEq] at hr
          exact absurd hr.2 (by simp)
        · simp only [step, if_neg hp, Prod.mk.injEq] at hr
          exact absurd hr.2 (by simp)

/-- Closed instance of the single-flight discipline at the mount state,
where the start fetch is in flight. -/
theorem single_flight_witness :
    (((trimString mountWidget.1.input).isEmpty = true ∨ mountWidget.1.isLoading = true) →
      step mountWidget.1 Event.submit = (mountWidget.1, none)) ∧
    (sendDisabled mountWidget.1 = true ↔
      ((trimString mountWidget.1.input).isEmpty = true ∨ mountWidget.1.isLoading = true)) ∧
    (∀ (e : Event) (w2 : WidgetState) (r : Request),
      step mountWidget.1 e = (w2, some r) → mountWidget.1.pending = none) ∧
    (∀ (e : Event) (w2 : WidgetState) (req : ChatRequest),
      step mountWidget.1 e = (w2, some (Request.chat req)) →
      req.message = trimString mountWidget.1.input ∧ req.message.isEmpty = false) :=
  single_flight_spec mountWidget.1 ReachableW.mount

/-- C10: a fetch failure during chat appends exactly one apology assistant
message and leaves sessionId and the finished flag unchanged, and a fetch
failure during start does the same (its transcript, empty whenever a start
fetch is in flight, becomes exactly the one apology message), so a
transient failure never ends or switches the session. -/
theorem fetch_failure_spec (w : WidgetState) (h : ReachableW w) :
    (w.pending = some Pending.chat →
      (step w (Event.chatResult FetchOutcome.failed)).1.messages =
        w.messages ++ [⟨WRole.assistant, chatApology⟩] ∧
      (step w (Event.chatResult FetchOutcome.failed)).1.sessionId = w.sessionId ∧
      (step w (Event.chatResult FetchOutcome.failed)).1.isFinished = w.isFinished ∧
      (step w (Event.chatResult FetchOutcome.failed)).2 = none) ∧
    (w.pending = some Pending.start →
      (step w (Event.startResult FetchOutcome.failed)).1.messages =
        w.messages ++ [⟨WRole.assistant, startApology⟩] ∧
      (step w (Event.startResult FetchOutcome.failed)).1.sessionId = w.sessionId ∧
      (step w (Event.startResult FetchOutcome.failed)).1.isFinished = w.isFinished ∧
      (step w (Event.startResult FetchOutcome.failed)).2 = none) := by
  obtain ⟨h1, h2, h3⟩ := reachableW_WInv w h
  constructor
  · intro hp
    refine ⟨?_, ?_, ?_, ?_⟩ <;>
      simp only [step, if_pos hp, sendMessageComplete]
  · intro hp
    have hempty := h3 hp
    refine ⟨?_, ?_, ?_, ?_⟩ <;>
      simp only [step, if_pos hp, startConversationComplete, hempty, List.nil_append]

/-- Closed instance of the fetch-failure recovery, for a chat failure in a
reachable state with a chat fetch in flight, and for a start failure at
the mount state. -/
theorem fetch_failure_witness :
    ((step (⟨[⟨WRole.assistant, "Welcome!"⟩, ⟨WRole.user, "a latte"⟩], "", true,
        some "sid-1", false, some Pending.chat⟩ : WidgetState)
        (Event.chatResult FetchOutcome.failed)).1.messages =
      (⟨[⟨WRole.assistant, "Welcome!"⟩, ⟨WRole.user, "a latte"⟩], "", true,
        some "sid-1", false, some Pending.chat⟩ : WidgetState).messages ++
        [⟨WRole.assistant, chatApology⟩] ∧
     (step (⟨[⟨WRole.assistant, "Welcome!"⟩, ⟨WRole.user, "a latte"⟩], "", true,
        some "sid-1", false, some Pending.chat⟩ : WidgetState)
        (Event.chatResult FetchOutcome.failed)).1.sessionId = some "sid-1" ∧
     (step (⟨[⟨WRole.assistant, "Welcome!"⟩, ⟨WRole.user, "a latte"⟩], "", true,
        some "sid-1", false, some Pending.chat⟩ : WidgetState)
        (Event.chatResult FetchOutcome.failed)).1.isFinished = false ∧
     (step (⟨[⟨WRole.assistant, "Welcome!"⟩, ⟨WRole.user, "a latte"⟩], "", true,
        some "sid-1", false, some Pending.chat⟩ : WidgetState)
        (Event.chatResult FetchOutcome.failed)).2 = none) ∧
    ((step mountWidget.1 (Event.startResult FetchOutcome.failed)).1.messages =
      mountWidget.1.messages ++ [⟨WRole.assistant, startApology⟩] ∧
     (step mountWidget.1 (Event.startResult FetchOutcome.failed)).1.sessionId =
       mountWidget.1.sessionId ∧
     (step mountWidget.1 (Event.startResult FetchOutcome.failed)).1.isFinished =
       mountWidget.1.isFinished ∧
     (step mountWidget.1 (Event.startResult FetchOutcome.failed)).2 = none) :=
  ⟨(fetch_failure_spec
      (⟨[⟨WRole.assistant, "Welcome!"⟩, ⟨WRole.user, "a latte"⟩], "", true,
        some "sid-1", false, some Pending.chat⟩ : WidgetState)
      (ReachableW.stp _ Event.submit
        (ReachableW.stp _ (Event.typeInput "a latte")
          (ReachableW.stp _ (Event.startResult
              (FetchOutcome.ok ⟨"sid-1", "Welcome!", false⟩))
            ReachableW.mount)))).1 rfl,
   (fetch_failure_spec mountWidget.1 ReachableW.mount).2 rfl⟩


end Widget
